import Mathlib

/-!
Shallow embedding of `vocalysis_analyzer.py` (Vocalysis repository).

Python floats are modelled by the rationals `ℚ`; the external numeric
capabilities (pydub/librosa decoding, `librosa.piptrack`, `librosa.feature.rms`,
`librosa.onset.onset_detect`, `librosa.get_duration`, Whisper transcription)
are the fields of an `Env` structure; a capability that can raise a Python
exception returns `Except String α`.  Python strings are modelled by `String`
(with whitespace tokenisation defined on `List Char`), and the dictionaries
returned by `run_full_analysis` are modelled as ordered association lists
from `String` to `PyVal` (number or string), in the insertion order of the
source.
-/

namespace Vocalysis

/-- A Python value appearing in the analysis report: a float or a string. -/
inductive PyVal where
  | num (q : ℚ)
  | str (s : String)
deriving DecidableEq, Repr

/-- `normalize_score(value, min_val, max_val, reverse=False)` from
`vocalysis_analyzer.py`: clamp to `[min_val, max_val]`, rescale linearly to
`[0,1]`, optionally invert, and scale by 10. -/
def normalize_score (value min_val max_val : ℚ) (reverse : Bool := false) : ℚ :=
  let v := max (min value max_val) min_val
  let normalized := (v - min_val) / (max_val - min_val)
  if reverse then (1 - normalized) * 10 else normalized * 10

/-- `np.diff`: successive differences `a[i+1] - a[i]`. -/
def listDiff : List ℚ → List ℚ
  | x :: y :: rest => (y - x) :: listDiff (y :: rest)
  | _ => []

/-- `np.mean` over the rationals; the empty mean is 0 by the Lean convention
`x / 0 = 0` (the source never takes the mean of an empty array on the paths
modelled here). -/
def meanList (l : List ℚ) : ℚ := l.sum / l.length

/-- `np.ptp`: peak-to-peak (max minus min); only ever applied to lists of
length ≥ 2 in the source (guarded), 0 on the empty list here. -/
def listPtp : List ℚ → ℚ
  | [] => 0
  | x :: xs => xs.foldl max x - xs.foldl min x

/-- Binary maximum written with an `if`, as the Python builtin computes it
(definitionally equal to `max` on `ℚ`, and evaluable by the kernel). -/
def pyMax (a b : ℚ) : ℚ := if a ≤ b then b else a

/-- Absolute value written with an `if`, as `np.abs` computes it. -/
def pyAbs (a : ℚ) : ℚ := if a < 0 then -a else a

/-- `np.max(np.abs(y))`: peak absolute amplitude (the source applies it to a
nonempty waveform; since `pyAbs a ≥ 0` the fold with base 0 agrees there). -/
def peakAbs (y : List ℚ) : ℚ := (y.map pyAbs).foldl pyMax 0

/-- Scan for `np.argmax`: `best` is the running maximum, `bestIdx` its first
index, `i` the index of the head of the remaining list. -/
def argmaxFrom (best : ℚ) (bestIdx i : ℕ) : List ℚ → ℕ
  | [] => bestIdx
  | x :: xs => if best < x then argmaxFrom x i (i + 1) xs else argmaxFrom best bestIdx (i + 1) xs

/-- Index of the first maximal element, as `np.argmax` (0 on the empty list,
where numpy would raise; `piptrack` columns are never empty). -/
def argmaxIdx : List ℚ → ℕ
  | [] => 0
  | x :: xs => argmaxFrom x 0 1 xs

/-- One analysis frame of the `librosa.piptrack` output: the column of
(pitch, magnitude) pairs over the frequency bins at one time step. -/
abbrev Frame := List (ℚ × ℚ)

/-- `pitches[magnitudes[:, t].argmax(), t]`: the pitch of the bin with
maximal magnitude in the frame. -/
def framePitch (f : Frame) : ℚ :=
  ((f.getD (argmaxIdx (f.map Prod.snd)) (0, 0))).1

/-- The voiced pitch contour of `analyze_clarity`:
`[pitches[mag[:,t].argmax(), t] for t in range(frames) if ... > 0]`. -/
def pitchContour (track : List Frame) : List ℚ :=
  (track.map framePitch).filter (fun p => 0 < p)

/-- All strictly positive entries of the pitch matrix, as
`pitches[pitches > 0]` in `analyze_energy_engagement`. -/
def positivePitches (track : List Frame) : List ℚ :=
  ((track.map (fun f => f.map Prod.fst)).flatten).filter (fun p => 0 < p)

/-- Whitespace tokenisation of a character list: Python `str.split()` — split
on runs of whitespace, discarding empty tokens.  `acc` holds the reversed
characters of the token currently being read. -/
def splitWsAux : List Char → List Char → List (List Char)
  | acc, [] => if acc.isEmpty then [] else [acc.reverse]
  | acc, c :: cs =>
    if c.isWhitespace then
      if acc.isEmpty then splitWsAux [] cs else acc.reverse :: splitWsAux [] cs
    else splitWsAux (c :: acc) cs

/-- Python `str.split()` on a character list. -/
def splitWs (cs : List Char) : List (List Char) := splitWsAux [] cs

/-- `transcribed_text.lower().split()`: lower-case, then whitespace-split. -/
def pyWords (text : String) : List (List Char) :=
  splitWs (text.data.map Char.toLower)

/-- The fixed filler-word list of `analyze_confidence`:
`["um", "uh", "like", "you know", "so", "actually", "basically"]`. -/
def fillerList : List (List Char) :=
  ["um".data, "uh".data, "like".data, "you know".data, "so".data,
   "actually".data, "basically".data]

/-- The filler list without its two-word entry `"you know"`. -/
def fillerListSingle : List (List Char) :=
  ["um".data, "uh".data, "like".data, "so".data, "actually".data, "basically".data]

/-- `sum(1 for word in words if word in fillerList)`. -/
def fillerCount (words : List (List Char)) : ℕ :=
  words.countP (fun w => fillerList.contains w)

/-- The external capabilities consumed by the analyzer, for one request.
`load` is the composite pydub-decode / standardize / re-decode stage for the
given input path (the whole `try` block of `run_full_analysis`); a field of
type `Except String _` models a call that can raise.  `std` is `np.std`,
abstract because its square root is irrational; every claim treats its output
only through `normalize_score`, which clamps. -/
structure Env where
  load : Except String (List ℚ)
  transcribe : List ℚ → String
  piptrack : List ℚ → ℚ → Except String (List Frame)
  rms : List ℚ → Except String (List ℚ)
  std : List ℚ → ℚ
  onset_detect : List ℚ → ℚ → Except String (List ℚ)
  get_duration : List ℚ → ℚ → Except String ℚ

/-- Body of the `try` block of `analyze_clarity`. -/
def analyze_clarity_inner (env : Env) (y : List ℚ) (sr : ℚ) : Except String ℚ :=
  match env.piptrack y sr with
  | .error e => .error e
  | .ok track =>
    let pitch_values := pitchContour track
    if pitch_values.length < 2 then .ok 0
    else
      let jitter := meanList ((listDiff pitch_values).map (fun d => |d|))
      match env.rms y with
      | .error e => .error e
      | .ok rmsEnv =>
        let shimmer := meanList ((listDiff rmsEnv).map (fun d => |d|))
        .ok ((normalize_score jitter 0 5 true + normalize_score shimmer 0 (1/10) true) / 2)

/-- `analyze_clarity(y, sr)`: the `try` body, any exception giving 0.0. -/
def analyze_clarity (env : Env) (y : List ℚ) (sr : ℚ) : ℚ :=
  match analyze_clarity_inner env y sr with
  | .ok v => v
  | .error _ => 0

/-- Body of the `try` block of `analyze_confidence`. -/
def analyze_confidence_inner (env : Env) (y : List ℚ) (sr : ℚ)
    (transcribed_text : String) : Except String ℚ :=
  match env.rms y with
  | .error e => .error e
  | .ok rmsEnv =>
    let volume_stability_score := normalize_score (env.std rmsEnv) 0 (1/10) true
    let words := pyWords transcribed_text
    if words.isEmpty then .ok volume_stability_score
    else
      let filler_ratio :=
        if words.isEmpty then 0
        else (fillerCount words : ℚ) / ((words.length : ℚ) / 100)
      let filler_word_score := normalize_score filler_ratio 0 10 true
      .ok ((volume_stability_score + filler_word_score) / 2)

/-- `analyze_confidence(y, sr, transcribed_text)`: the `try` body, any
exception giving 0.0. -/
def analyze_confidence (env : Env) (y : List ℚ) (sr : ℚ)
    (transcribed_text : String) : ℚ :=
  match analyze_confidence_inner env y sr transcribed_text with
  | .ok v => v
  | .error _ => 0

/-- Body of the `try` block of `analyze_energy_engagement`. -/
def analyze_energy_engagement_inner (env : Env) (y : List ℚ) (sr : ℚ) :
    Except String ℚ :=
  match env.piptrack y sr with
  | .error e => .error e
  | .ok track =>
    let pitch_values := positivePitches track
    match env.get_duration y sr with
    | .error e => .error e
    | .ok duration =>
      if duration = 0 then .ok 0
      else
        let pitch_range_score :=
          normalize_score (if 1 < pitch_values.length then listPtp pitch_values else 0) 50 250
        match env.onset_detect y sr with
        | .error e => .error e
        | .ok onsets =>
          let speech_rate_score := normalize_score ((onsets.length : ℚ) / duration) 2 6
          .ok ((pitch_range_score + speech_rate_score) / 2)

/-- `analyze_energy_engagement(y, sr)`: the `try` body, any exception
giving 0.0. -/
def analyze_energy_engagement (env : Env) (y : List ℚ) (sr : ℚ) : ℚ :=
  match analyze_energy_engagement_inner env y sr with
  | .ok v => v
  | .error _ => 0

/-- `placeholder_mood_analysis()`: the fixed status dictionary. -/
def placeholder_mood_analysis : List (String × String) := [("Status", "Not Implemented")]

/-- `placeholder_professionalism_score(clarity, confidence)`: the mean of the
two scores, or the string `"Not Calculated"` when either is `None`. -/
def placeholder_professionalism_score : Option ℚ → Option ℚ → PyVal
  | some clarity, some confidence => .num ((clarity + confidence) / 2)
  | _, _ => .str "Not Calculated"

/-- The `isinstance(p, (int, float, np.number))` guard on the
`"Professionalism Score"` report field: keep a number, replace anything else
by `"Not Calculated"`. -/
def professionalismField : PyVal → PyVal
  | .num q => .num q
  | .str _ => .str "Not Calculated"

/-- `run_full_analysis(audio_path)` for one request, the loading and
standardizing outcome of the path and the external capabilities packaged in
`env`.  Mirrors the source: load (errors giving the `"error"` mapping),
silence check at peak amplitude `0.001`, transcription, the three extractors
at `sr = 16000`, and the composed report. -/
def run_full_analysis (env : Env) : List (String × PyVal) :=
  match env.load with
  | .error e => [("error", .str ("Could not load audio file: " ++ e))]
  | .ok y =>
    if peakAbs y < 1/1000 then
      [("Clarity Score", .num 0),
       ("Confidence Score", .num 0),
       ("Energy & Engagement Score", .num 0),
       ("Professionalism Score", .num 0),
       ("Mood Analysis", .str "Not Implemented"),
       ("Transcription", .str "Audio is silent or contains no speech.")]
    else
      let transcribed_text := env.transcribe y
      let clarity_score := analyze_clarity env y 16000
      let confidence_score := analyze_confidence env y 16000 transcribed_text
      let engagement_score := analyze_energy_engagement env y 16000
      let professionalism_score :=
        placeholder_professionalism_score (some clarity_score) (some confidence_score)
      let mood_report := placeholder_mood_analysis
      [("Clarity Score", .num clarity_score),
       ("Confidence Score", .num confidence_score),
       ("Energy & Engagement Score", .num engagement_score),
       ("Professionalism Score", professionalismField professionalism_score),
       ("Mood Analysis", .str ((mood_report.lookup "Status").getD "")),
       ("Transcription", .str transcribed_text)]

/-- Concrete environment in which every external capability raises. -/
def envBoom : Env where
  load := .error "boom"
  transcribe := fun _ => ""
  piptrack := fun _ _ => .error "boom"
  rms := fun _ => .error "boom"
  std := fun _ => 0
  onset_detect := fun _ _ => .error "boom"
  get_duration := fun _ _ => .error "boom"

/-- Concrete environment: loading succeeds with a quiet one-sample waveform,
the spectral capabilities return empty data. -/
def envSilent : Env where
  load := .ok [1/2000]
  transcribe := fun _ => ""
  piptrack := fun _ _ => .ok []
  rms := fun _ => .ok []
  std := fun _ => 0
  onset_detect := fun _ _ => .ok []
  get_duration := fun _ _ => .ok 1

/-- Concrete environment: loading succeeds with a loud one-sample waveform,
the spectral capabilities return empty data. -/
def envLoud : Env where
  load := .ok [1]
  transcribe := fun _ => ""
  piptrack := fun _ _ => .ok []
  rms := fun _ => .ok []
  std := fun _ => 0
  onset_detect := fun _ _ => .ok []
  get_duration := fun _ _ => .ok 1

/-- The clamped value stays within the bounds. -/
theorem clamp_mem (value min_val max_val : ℚ) (h : min_val ≤ max_val) :
    min_val ≤ max (min value max_val) min_val ∧ max (min value max_val) min_val ≤ max_val :=
  ⟨le_max_right _ _, max_le (min_le_right _ _) h⟩

/-- With `min_val < max_val`, `normalize_score` always lands in `[0, 10]`. -/
theorem normalize_score_in_range (value min_val max_val : ℚ) (b : Bool)
    (h : min_val < max_val) :
    0 ≤ normalize_score value min_val max_val b ∧ normalize_score value min_val max_val b ≤ 10 := by
  obtain ⟨h1, h2⟩ := clamp_mem value min_val max_val h.le
  unfold normalize_score
  set v := max (min value max_val) min_val with hv
  have hden : (0:ℚ) < max_val - min_val := by linarith
  have hn0 : 0 ≤ (v - min_val) / (max_val - min_val) := by
    apply div_nonneg <;> linarith
  have hn1 : (v - min_val) / (max_val - min_val) ≤ 1 := by
    rw [div_le_one hden]; linarith
  cases b <;> simp only [if_true, if_false, Bool.false_eq_true] <;> constructor <;> nlinarith

/-- `normalize_score` written without its let-bindings. -/
theorem normalize_score_eq (value m M : ℚ) (b : Bool) :
    normalize_score value m M b =
      if b then (1 - (max (min value M) m - m) / (M - m)) * 10
      else (max (min value M) m - m) / (M - m) * 10 := rfl

/-- At `value = min_val`, the score is 0 (10 when reversed). -/
theorem normalize_score_at_min (m M : ℚ) (b : Bool) (h : m ≤ M) :
    normalize_score m m M b = if b then 10 else 0 := by
  rw [normalize_score_eq, min_eq_left h, max_self]
  cases b <;> simp

/-- At `value = max_val`, the score is 10 (0 when reversed). -/
theorem normalize_score_at_max (m M : ℚ) (b : Bool) (h : m < M) :
    normalize_score M m M b = if b then 0 else 10 := by
  rw [normalize_score_eq, min_self, max_eq_left h.le,
    div_self (sub_ne_zero.mpr (ne_of_gt h))]
  cases b <;> norm_num

/-- The pre-inversion normalized value is monotone in `value`. -/
theorem normalize_core_mono (m M v w : ℚ) (h : m < M) (hvw : v ≤ w) :
    (max (min v M) m - m) / (M - m) ≤ (max (min w M) m - m) / (M - m) := by
  have hc : max (min v M) m ≤ max (min w M) m :=
    max_le_max (min_le_min hvw le_rfl) le_rfl
  have hd : (0:ℚ) < M - m := by linarith
  rw [div_eq_mul_inv, div_eq_mul_inv]
  have hinv : (0:ℚ) ≤ (M - m)⁻¹ := inv_nonneg.mpr hd.le
  nlinarith

/-- Values at or above `max_val` saturate: same score as at `max_val`. -/
theorem normalize_score_sat_high (value m M : ℚ) (b : Bool) (hM : M ≤ value) :
    normalize_score value m M b = normalize_score M m M b := by
  rw [normalize_score_eq, normalize_score_eq, min_eq_right hM, min_self]

/-- Values at or below `min_val` saturate: same score as at `min_val`. -/
theorem normalize_score_sat_low (value m M : ℚ) (b : Bool) (h : m ≤ M)
    (hm : value ≤ m) :
    normalize_score value m M b = normalize_score m m M b := by
  rw [normalize_score_eq, normalize_score_eq, min_eq_left h,
    min_eq_left (le_trans hm h), max_eq_right hm, max_self]

/-- C1: with `min_val < max_val`, `normalize_score` always returns a value in
`[0,10]`; it is 0 at `value = min_val` and 10 at `value = max_val` (10 and 0
respectively when `reverse` is set); it is monotone non-decreasing in `value`
when `reverse` is false and non-increasing when `reverse` is true; and
out-of-range values saturate at the clamped bound. -/
theorem normalize_score_correct (min_val max_val : ℚ) (h : min_val < max_val) :
    (∀ value b, 0 ≤ normalize_score value min_val max_val b ∧
        normalize_score value min_val max_val b ≤ 10)
  ∧ normalize_score min_val min_val max_val false = 0
  ∧ normalize_score max_val min_val max_val false = 10
  ∧ normalize_score min_val min_val max_val true = 10
  ∧ normalize_score max_val min_val max_val true = 0
  ∧ (∀ v w, v ≤ w →
      normalize_score v min_val max_val false ≤ normalize_score w min_val max_val false)
  ∧ (∀ v w, v ≤ w →
      normalize_score w min_val max_val true ≤ normalize_score v min_val max_val true)
  ∧ (∀ value b, max_val ≤ value →
      normalize_score value min_val max_val b = normalize_score max_val min_val max_val b)
  ∧ (∀ value b, value ≤ min_val →
      normalize_score value min_val max_val b = normalize_score min_val min_val max_val b) := by
  refine ⟨fun value b => normalize_score_in_range value min_val max_val b h,
    ?_, ?_, ?_, ?_, ?_, ?_,
    fun value b hv => normalize_score_sat_high value min_val max_val b hv,
    fun value b hv => normalize_score_sat_low value min_val max_val b h.le hv⟩
  · rw [normalize_score_at_min min_val max_val false h.le]; rfl
  · rw [normalize_score_at_max min_val max_val false h]; rfl
  · rw [normalize_score_at_min min_val max_val true h.le]; rfl
  · rw [normalize_score_at_max min_val max_val true h]; rfl
  · intro v w hvw
    have := normalize_core_mono min_val max_val v w h hvw
    rw [normalize_score_eq, normalize_score_eq]
    simp only [if_neg, Bool.false_eq_true, if_false]
    nlinarith
  · intro v w hvw
    have := normalize_core_mono min_val max_val v w h hvw
    rw [normalize_score_eq, normalize_score_eq]
    simp only [if_pos]
    nlinarith

/-- Witness for C1 at `min_val = 0`, `max_val = 5`, `value = 3`. -/
theorem normalize_score_correct_witness :
    (0:ℚ) < 5 ∧ normalize_score 3 0 5 false ≤ 10 :=
  ⟨by decide, ((normalize_score_correct 0 5 (by decide)).1 3 false).2⟩

/-- C5: the professionalism composite equals the arithmetic mean
`(clarity + confidence) / 2` whenever both inputs are numeric, equals the
status string `"Not Calculated"` whenever either input is missing, and is
never a numeric value when an input is missing. -/
theorem professionalism_mean_or_not_calculated :
    (∀ clarity confidence : ℚ,
      placeholder_professionalism_score (some clarity) (some confidence) =
        .num ((clarity + confidence) / 2))
  ∧ (∀ x, placeholder_professionalism_score none x = .str "Not Calculated")
  ∧ (∀ x, placeholder_professionalism_score x none = .str "Not Calculated")
  ∧ (∀ x q, placeholder_professionalism_score none x ≠ .num q)
  ∧ (∀ x q, placeholder_professionalism_score x none ≠ .num q) := by
  refine ⟨fun c f => rfl, fun x => by cases x <;> rfl, fun x => by cases x <;> rfl,
    fun x q h => ?_, fun x q h => ?_⟩
  · cases x <;> simp [placeholder_professionalism_score] at h
  · cases x <;> simp [placeholder_professionalism_score] at h

/-- Witness for C5 at clarity 4 and confidence 6. -/
theorem professionalism_mean_or_not_calculated_witness :
    placeholder_professionalism_score (some 4) (some 6) = .num ((4 + 6) / 2) ∧
    placeholder_professionalism_score none (some 6) = .str "Not Calculated" :=
  ⟨professionalism_mean_or_not_calculated.1 4 6,
   professionalism_mean_or_not_calculated.2.1 (some 6)⟩

/-- C6: whenever the body of the `try` block of an extractor raises, the
extractor returns 0.0 and the exception does not propagate. -/
theorem extractors_absorb_exceptions :
    (∀ env y sr e, analyze_clarity_inner env y sr = .error e →
      analyze_clarity env y sr = 0)
  ∧ (∀ env y sr text e, analyze_confidence_inner env y sr text = .error e →
      analyze_confidence env y sr text = 0)
  ∧ (∀ env y sr e, analyze_energy_engagement_inner env y sr = .error e →
      analyze_energy_engagement env y sr = 0) := by
  refine ⟨fun env y sr e h => ?_, fun env y sr text e h => ?_, fun env y sr e h => ?_⟩
  · simp [analyze_clarity, h]
  · simp [analyze_confidence, h]
  · simp [analyze_energy_engagement, h]

/-- Witness for C6: in `envBoom` every capability raises and all three
extractors return 0. -/
theorem extractors_absorb_exceptions_witness :
    analyze_clarity envBoom [] 16000 = 0 ∧
    analyze_confidence envBoom [] 16000 "hi" = 0 ∧
    analyze_energy_engagement envBoom [] 16000 = 0 :=
  ⟨extractors_absorb_exceptions.1 envBoom [] 16000 "boom" rfl,
   extractors_absorb_exceptions.2.1 envBoom [] 16000 "hi" "boom" rfl,
   extractors_absorb_exceptions.2.2 envBoom [] 16000 "boom" rfl⟩

/-- C7: when the pitch track yields fewer than 2 voiced (positive-pitch)
frames, `analyze_clarity` returns exactly 0.0 by its explicit guard. -/
theorem analyze_clarity_insufficient_voiced (env : Env) (y : List ℚ) (sr : ℚ)
    (track : List Frame) (hp : env.piptrack y sr = .ok track)
    (hlen : (pitchContour track).length < 2) :
    analyze_clarity env y sr = 0 := by
  unfold analyze_clarity analyze_clarity_inner
  rw [hp]
  simp [hlen]

/-- Witness for C7: an empty pitch track has 0 voiced frames. -/
theorem analyze_clarity_insufficient_voiced_witness :
    envSilent.piptrack [] 16000 = .ok [] ∧ (pitchContour []).length < 2 ∧
    analyze_clarity envSilent [] 16000 = 0 :=
  ⟨rfl, by decide,
   analyze_clarity_insufficient_voiced envSilent [] 16000 [] rfl (by decide)⟩

/-- C8: when the lower-cased whitespace tokenisation of the transcription is
empty, `analyze_confidence` returns the volume-stability sub-score
`normalize_score(np.std(rms), 0, 0.1, reverse=True)` alone. -/
theorem analyze_confidence_no_tokens (env : Env) (y : List ℚ) (sr : ℚ)
    (text : String) (rmsEnv : List ℚ) (hr : env.rms y = .ok rmsEnv)
    (hw : pyWords text = []) :
    analyze_confidence env y sr text = normalize_score (env.std rmsEnv) 0 (1/10) true := by
  unfold analyze_confidence analyze_confidence_inner
  rw [hr]
  simp [hw]

/-- Witness for C8: the empty transcription has no tokens. -/
theorem analyze_confidence_no_tokens_witness :
    envSilent.rms [] = .ok [] ∧ pyWords "" = [] ∧
    analyze_confidence envSilent [] 16000 "" =
      normalize_score (envSilent.std []) 0 (1/10) true :=
  ⟨rfl, rfl, analyze_confidence_no_tokens envSilent [] 16000 "" [] rfl rfl⟩

/-- Tokens produced by `splitWsAux` contain no whitespace characters, given
an accumulator containing none. -/
theorem splitWsAux_no_ws (cs : List Char) :
    ∀ acc, (∀ c ∈ acc, c.isWhitespace = false) →
      ∀ t ∈ splitWsAux acc cs, ∀ c ∈ t, c.isWhitespace = false := by
  induction cs with
  | nil =>
    intro acc hacc t ht c hc
    unfold splitWsAux at ht
    by_cases h0 : acc.isEmpty
    · simp [h0] at ht
    · simp only [h0, if_false, Bool.false_eq_true, List.mem_singleton] at ht
      subst ht
      exact hacc c (List.mem_reverse.mp hc)
  | cons x xs ih =>
    intro acc hacc t ht c hc
    unfold splitWsAux at ht
    by_cases hx : x.isWhitespace
    · rw [if_pos hx] at ht
      by_cases h0 : acc.isEmpty
      · rw [if_pos h0] at ht
        exact ih [] (by simp) t ht c hc
      · rw [if_neg h0] at ht
        rcases List.mem_cons.mp ht with h | h
        · subst h
          exact hacc c (List.mem_reverse.mp hc)
        · exact ih [] (by simp) t h c hc
    · rw [if_neg hx] at ht
      refine ih (x :: acc) ?_ t ht c hc
      intro d hd
      rcases List.mem_cons.mp hd with h | h
      · subst h; exact Bool.eq_false_iff.mpr hx
      · exact hacc d h

/-- Tokens of the lower-cased whitespace split contain no whitespace. -/
theorem pyWords_no_ws (text : String) :
    ∀ t ∈ pyWords text, ∀ c ∈ t, c.isWhitespace = false :=
  fun t ht c hc =>
    splitWsAux_no_ws (text.data.map Char.toLower) [] (by simp) t ht c hc

/-- C9: the filler count of `analyze_confidence` counts the whitespace-split
lower-cased tokens belonging to the fixed filler set, no token ever equals
the multi-word entry "you know" (a token cannot contain a space), and so the
count always equals the count against the six single-word fillers alone. -/
theorem filler_multiword_never_matches (text : String) :
    (∀ t ∈ pyWords text, t ≠ "you know".data)
  ∧ fillerCount (pyWords text) =
      (pyWords text).countP (fun w => fillerListSingle.contains w) := by
  have hne : ∀ t ∈ pyWords text, t ≠ "you know".data := by
    intro t ht heq
    have h1 := pyWords_no_ws text t ht ' ' (by rw [heq]; decide)
    exact absurd h1 (by decide)
  refine ⟨hne, ?_⟩
  unfold fillerCount
  apply List.countP_congr
  intro w hw
  simp [fillerList, fillerListSingle, hne w hw]

/-- Witness for C9 on a transcription containing "you know" and "um". -/
theorem filler_multiword_never_matches_witness :
    "um".data ∈ pyWords "you know um" ∧ "um".data ≠ "you know".data ∧
    fillerCount (pyWords "you know um") =
      (pyWords "you know um").countP (fun w => fillerListSingle.contains w) :=
  ⟨by decide,
   (filler_multiword_never_matches "you know um").1 "um".data (by decide),
   (filler_multiword_never_matches "you know um").2⟩

/-- The clarity score always lies in `[0, 10]`. -/
theorem analyze_clarity_in_range (env : Env) (y : List ℚ) (sr : ℚ) :
    0 ≤ analyze_clarity env y sr ∧ analyze_clarity env y sr ≤ 10 := by
  unfold analyze_clarity analyze_clarity_inner
  cases hp : env.piptrack y sr with
  | error e => norm_num
  | ok track =>
    by_cases hlen : (pitchContour track).length < 2
    · simp [hlen]
    · cases hr : env.rms y with
      | error e => simp [hlen]
      | ok rmsEnv =>
        simp only [hlen, if_false]
        have h1 := normalize_score_in_range
          (meanList ((listDiff (pitchContour track)).map (fun d => |d|))) 0 5 true
          (by norm_num)
        have h2 := normalize_score_in_range
          (meanList ((listDiff rmsEnv).map (fun d => |d|))) 0 (1/10) true (by norm_num)
        constructor <;> linarith [h1.1, h1.2, h2.1, h2.2]

/-- The confidence score always lies in `[0, 10]`. -/
theorem analyze_confidence_in_range (env : Env) (y : List ℚ) (sr : ℚ)
    (text : String) :
    0 ≤ analyze_confidence env y sr text ∧ analyze_confidence env y sr text ≤ 10 := by
  unfold analyze_confidence analyze_confidence_inner
  cases hr : env.rms y with
  | error e => norm_num
  | ok rmsEnv =>
    have h1 := normalize_score_in_range (env.std rmsEnv) 0 (1/10) true (by norm_num)
    by_cases hw : (pyWords text).isEmpty
    · simp only [hw, if_true]
      exact ⟨h1.1, h1.2⟩
    · simp only [hw, if_false, Bool.false_eq_true]
      have h2 := normalize_score_in_range
        ((fillerCount (pyWords text) : ℚ) / (((pyWords text).length : ℚ) / 100))
        0 10 true (by norm_num)
      constructor <;> linarith [h1.1, h1.2, h2.1, h2.2]

/-- The energy/engagement score always lies in `[0, 10]`. -/
theorem analyze_energy_engagement_in_range (env : Env) (y : List ℚ) (sr : ℚ) :
    0 ≤ analyze_energy_engagement env y sr ∧ analyze_energy_engagement env y sr ≤ 10 := by
  unfold analyze_energy_engagement analyze_energy_engagement_inner
  cases hp : env.piptrack y sr with
  | error e => norm_num
  | ok track =>
    cases hd : env.get_duration y sr with
    | error e => norm_num
    | ok duration =>
      by_cases h0 : duration = 0
      · simp [h0]
      · simp only [h0, if_false]
        cases ho : env.onset_detect y sr with
        | error e => norm_num
        | ok onsets =>
          have h1 := normalize_score_in_range
            (if 1 < (positivePitches track).length then listPtp (positivePitches track)
             else 0) 50 250 false (by norm_num)
          have h2 := normalize_score_in_range ((onsets.length : ℚ) / duration) 2 6 false
            (by norm_num)
          constructor <;> linarith [h1.1, h1.2, h2.1, h2.2]

/-- Unfolding of `run_full_analysis` when loading succeeds. -/
theorem run_full_analysis_ok_eq (env : Env) (y : List ℚ) (hl : env.load = .ok y) :
    run_full_analysis env =
      if peakAbs y < 1/1000 then
        [("Clarity Score", .num 0), ("Confidence Score", .num 0),
         ("Energy & Engagement Score", .num 0), ("Professionalism Score", .num 0),
         ("Mood Analysis", .str "Not Implemented"),
         ("Transcription", .str "Audio is silent or contains no speech.")]
      else
        [("Clarity Score", .num (analyze_clarity env y 16000)),
         ("Confidence Score", .num (analyze_confidence env y 16000 (env.transcribe y))),
         ("Energy & Engagement Score", .num (analyze_energy_engagement env y 16000)),
         ("Professionalism Score", professionalismField
            (placeholder_professionalism_score (some (analyze_clarity env y 16000))
              (some (analyze_confidence env y 16000 (env.transcribe y))))),
         ("Mood Analysis", .str ((placeholder_mood_analysis.lookup "Status").getD "")),
         ("Transcription", .str (env.transcribe y))] := by
  unfold run_full_analysis
  rw [hl]

/-- The quiet one-sample waveform is below the silence threshold. -/
theorem peakAbs_quiet : peakAbs [(1:ℚ)/2000] < 1/1000 := by
  norm_num [peakAbs, pyAbs, pyMax]

/-- The loud one-sample waveform is above the silence threshold. -/
theorem peakAbs_loud : ¬ peakAbs [(1:ℚ)] < 1/1000 := by
  norm_num [peakAbs, pyAbs, pyMax]

/-- C2: when loading succeeds with a (nonempty) waveform whose peak absolute
amplitude is below 0.001, `run_full_analysis` returns exactly the fixed
silence mapping, for every behavior of the transcription and spectral
capabilities and every waveform length. -/
theorem run_full_analysis_silent (env : Env) (y : List ℚ)
    (hl : env.load = .ok y) (_hne : y ≠ []) (hq : peakAbs y < 1/1000) :
    run_full_analysis env =
      [("Clarity Score", .num 0), ("Confidence Score", .num 0),
       ("Energy & Engagement Score", .num 0), ("Professionalism Score", .num 0),
       ("Mood Analysis", .str "Not Implemented"),
       ("Transcription", .str "Audio is silent or contains no speech.")] := by
  rw [run_full_analysis_ok_eq env y hl, if_pos hq]

/-- Witness for C2 on a one-sample waveform of amplitude 1/2000. -/
theorem run_full_analysis_silent_witness :
    envSilent.load = .ok [1/2000] ∧ ([1/2000] : List ℚ) ≠ [] ∧
    peakAbs [1/2000] < 1/1000 ∧
    run_full_analysis envSilent =
      [("Clarity Score", .num 0), ("Confidence Score", .num 0),
       ("Energy & Engagement Score", .num 0), ("Professionalism Score", .num 0),
       ("Mood Analysis", .str "Not Implemented"),
       ("Transcription", .str "Audio is silent or contains no speech.")] :=
  ⟨rfl, List.cons_ne_nil _ _, peakAbs_quiet,
   run_full_analysis_silent envSilent [1/2000] rfl (List.cons_ne_nil _ _) peakAbs_quiet⟩

/-- C3: when the loading/standardizing stage raises, `run_full_analysis`
returns the single-key error mapping with the fixed prefix followed by the
failure detail, for every behavior of the later stages. -/
theorem run_full_analysis_load_error (env : Env) (detail : String)
    (hl : env.load = .error detail) :
    run_full_analysis env =
      [("error", .str ("Could not load audio file: " ++ detail))] := by
  unfold run_full_analysis
  rw [hl]

/-- Witness for C3 with a concrete failing load. -/
theorem run_full_analysis_load_error_witness :
    envBoom.load = .error "boom" ∧
    run_full_analysis envBoom =
      [("error", .str ("Could not load audio file: " ++ "boom"))] :=
  ⟨rfl, run_full_analysis_load_error envBoom "boom" rfl⟩

/-- C4: in every successful (non-error) result of `run_full_analysis`, every
numeric field lies within `[0, 10]`. -/
theorem run_full_analysis_scores_in_range (env : Env) (y : List ℚ)
    (hl : env.load = .ok y) :
    ∀ p ∈ run_full_analysis env, ∀ q, p.2 = PyVal.num q → 0 ≤ q ∧ q ≤ 10 := by
  intro p hp q hq
  rw [run_full_analysis_ok_eq env y hl] at hp
  by_cases hs : peakAbs y < 1/1000
  · rw [if_pos hs] at hp
    simp only [List.mem_cons, List.not_mem_nil, or_false] at hp
    rcases hp with h|h|h|h|h|h <;> rw [h] at hq
    case _ | _ | _ | _ =>
      injection hq with h2
      constructor <;> rw [← h2] <;> norm_num
    case _ | _ => exact PyVal.noConfusion hq
  · rw [if_neg hs] at hp
    simp only [List.mem_cons, List.not_mem_nil, or_false] at hp
    rcases hp with h|h|h|h|h|h <;> rw [h] at hq
    · injection hq with h2
      rw [← h2]
      exact analyze_clarity_in_range env y 16000
    · injection hq with h2
      rw [← h2]
      exact analyze_confidence_in_range env y 16000 (env.transcribe y)
    · injection hq with h2
      rw [← h2]
      exact analyze_energy_engagement_in_range env y 16000
    · simp only [professionalismField, placeholder_professionalism_score] at hq
      injection hq with h2
      rw [← h2]
      have hc := analyze_clarity_in_range env y 16000
      have hf := analyze_confidence_in_range env y 16000 (env.transcribe y)
      constructor <;> linarith [hc.1, hc.2, hf.1, hf.2]
    · exact PyVal.noConfusion hq
    · exact PyVal.noConfusion hq

/-- The report computed in the quiet-load environment, evaluated. -/
theorem run_full_analysis_envSilent_eval :
    run_full_analysis envSilent =
      [("Clarity Score", .num 0), ("Confidence Score", .num 0),
       ("Energy & Engagement Score", .num 0), ("Professionalism Score", .num 0),
       ("Mood Analysis", .str "Not Implemented"),
       ("Transcription", .str "Audio is silent or contains no speech.")] := by
  rw [run_full_analysis_ok_eq envSilent [1/2000] rfl, if_pos peakAbs_quiet]

/-- Witness for C4 on the quiet-load environment and the clarity field. -/
theorem run_full_analysis_scores_in_range_witness :
    envSilent.load = .ok [1/2000] ∧
    ("Clarity Score", PyVal.num 0) ∈ run_full_analysis envSilent ∧
    (0:ℚ) ≤ 0 ∧ (0:ℚ) ≤ 10 :=
  ⟨rfl, run_full_analysis_envSilent_eval ▸ List.mem_cons_self _ _,
   run_full_analysis_scores_in_range envSilent [1/2000] rfl
     ("Clarity Score", .num 0)
     (run_full_analysis_envSilent_eval ▸ List.mem_cons_self _ _) 0 rfl⟩

/-- C10: in every successful non-silence result, the professionalism field is
numeric — the string `"Not Calculated"` never appears, because both extractor
scores are always numbers, so `placeholder_professionalism_score` always
takes its numeric branch. -/
theorem professionalism_always_numeric (env : Env) (y : List ℚ)
    (hl : env.load = .ok y) (hs : ¬ peakAbs y < 1/1000) :
    ("Professionalism Score", PyVal.str "Not Calculated") ∉ run_full_analysis env
  ∧ ("Professionalism Score",
      PyVal.num ((analyze_clarity env y 16000 +
        analyze_confidence env y 16000 (env.transcribe y)) / 2)) ∈
      run_full_analysis env := by
  rw [run_full_analysis_ok_eq env y hl, if_neg hs]
  constructor
  · intro hmem
    simp only [professionalismField, placeholder_professionalism_score,
      List.mem_cons, List.not_mem_nil, or_false, Prod.mk.injEq] at hmem
    rcases hmem with ⟨h, h2⟩|⟨h, h2⟩|⟨h, h2⟩|⟨h, h2⟩|⟨h, h2⟩|⟨h, h2⟩ <;>
      first
        | exact PyVal.noConfusion h2
        | exact absurd h (by decide)
  · simp [professionalismField, placeholder_professionalism_score]

/-- Witness for C10 on the loud-load environment. -/
theorem professionalism_always_numeric_witness :
    envLoud.load = .ok [1] ∧ ¬ peakAbs [1] < 1/1000 ∧
    ("Professionalism Score", PyVal.str "Not Calculated") ∉ run_full_analysis envLoud :=
  ⟨rfl, peakAbs_loud, (professionalism_always_numeric envLoud [1] rfl peakAbs_loud).1⟩

end Vocalysis
